import Mathlib

/-!
Shallow embedding of the query-composition core of the `dsp-tracker` repository
(`src/data.rs`, `src/field.rs`, `src/error.rs`, the generated field enumerations
of `src/game_save/api/data.rs`, `src/solar_system/api/data.rs`,
`src/star/api/data.rs`, and the join/update logic of
`src/solar_system/domain/actions.rs`, `src/star/domain/actions.rs`,
`src/game_save/domain/actions.rs`), together with theorems settling the
claims about it.

Strings are modelled at the character level; the inputs exercised by the
claims are ASCII, where Rust byte indexing and character indexing agree.
-/

namespace DspTracker

/-! ### String helpers mirroring the Rust primitives used by the source -/

/-- Rust `char::to_ascii_lowercase`: lowercases ASCII uppercase letters only. -/
def asciiLowerChar (c : Char) : Char :=
  if 'A' ≤ c ∧ c ≤ 'Z' then Char.ofNat (c.toNat + 32) else c

/-- Rust `str::to_ascii_lowercase`. -/
def asciiLower (s : String) : String :=
  String.mk (s.data.map asciiLowerChar)

/-- Character count of a string (equals Rust `str::len` on ASCII input). -/
def strLen (s : String) : Nat := s.data.length

/-- Rust slice `&s[n..]` on ASCII input: drop the first `n` characters. -/
def strDrop (s : String) (n : Nat) : String := String.mk (s.data.drop n)

/-- Rust `str::starts_with` for a literal pattern, on ASCII input. -/
def strStarts (s pat : String) : Bool := List.isPrefixOf pat.data s.data

/-- Helper for `str::split_once(':')`: split at the first colon, if any. -/
def splitOnceColonAux : List Char → Option (List Char × List Char)
  | [] => none
  | c :: rest =>
    if c = ':' then some ([], rest)
    else
      match splitOnceColonAux rest with
      | some (a, b) => some (c :: a, b)
      | none => none

/-- Rust `str::split_once(':')`. -/
def splitOnceColon (s : String) : Option (String × String) :=
  (splitOnceColonAux s.data).map fun p => (String.mk p.1, String.mk p.2)

/-- ASCII decimal digit test. -/
def isAsciiDigit (c : Char) : Bool := 48 ≤ c.toNat && c.toNat ≤ 57

/-- Rust `u64::from_str_radix(s, 10)`: optional leading `+`, at least one
ASCII digit, all digits, value below `2^64` (overflow is a parse error).
Returns `none` on any parse failure. -/
def parseU64 (s : String) : Option Nat :=
  let ds := match s.data with
    | '+' :: rest => rest
    | other => other
  if ds.isEmpty then none
  else if ds.all isAsciiDigit then
    let v := ds.foldl (fun acc c => acc * 10 + (c.toNat - 48)) 0
    if v < 2 ^ 64 then some v else none
  else none

/-! ### Value model (`src/field.rs`)

`Value` is the tagged scalar union. The `float` and `dateTime` payloads are
carried as their Rust `Display` rendering (the numeric/chronological payload
itself is external to the verified core and is never inspected by it); `uuid`
carries the hyphenated rendering likewise. -/

inductive Value where
  | uuid (v : String)
  | str (v : String)
  | int8 (v : Int)
  | int16 (v : Int)
  | int32 (v : Int)
  | int64 (v : Int)
  | uint8 (v : Nat)
  | uint16 (v : Nat)
  | uint32 (v : Nat)
  | uint64 (v : Nat)
  | float (display : String)
  | dateTime (display : String)
deriving DecidableEq, Repr

/-- `impl fmt::Display for Value`. -/
def Value.display : Value → String
  | .uuid v => v
  | .str v => v
  | .int8 v => toString v
  | .int16 v => toString v
  | .int32 v => toString v
  | .int64 v => toString v
  | .uint8 v => toString v
  | .uint16 v => toString v
  | .uint32 v => toString v
  | .uint64 v => toString v
  | .float d => d
  | .dateTime d => d

/-- `FieldValue { name, value }`; `value = none` is the "absent" case. -/
structure FieldValue where
  name : String
  value : Option Value
deriving DecidableEq, Repr

/-- `FieldValue::new`. -/
def FieldValue.new (name : String) (v : Value) : FieldValue := ⟨name, some v⟩

/-- `FieldValue::null_value`. -/
def FieldValue.nullValue (name : String) : FieldValue := ⟨name, none⟩

/-- `format_value`: render the optional value, `"null"` when absent. -/
def formatValue : Option Value → String
  | some v => v.display
  | none => "null"

/-- `impl fmt::Display for FieldValue`. -/
def FieldValue.display (fv : FieldValue) : String :=
  fv.name ++ " `" ++ formatValue fv.value ++ "`"

/-- `FieldValues` display: the members joined with `", "`. -/
def displayFieldValues (ks : List FieldValue) : String :=
  String.intercalate ", " (ks.map FieldValue.display)

/-- `Bound { value, inclusive }`. -/
structure Bound where
  value : Value
  inclusive : Bool
deriving DecidableEq, Repr

/-- `Bound::inclusive`. -/
def Bound.mkInclusive (v : Value) : Bound := ⟨v, true⟩

/-- `impl fmt::Display for Bound`. -/
def Bound.display (b : Bound) : String :=
  if b.inclusive then ">= " ++ b.value.display else "> " ++ b.value.display

/-- `AllowedValues`; the `String` variant is named `string` here. -/
inductive AllowedValues where
  | Choice (values : List Value)
  | Integer (min max : Option Bound)
  | Float (min max : Option Bound)
  | DateTime (format : String)
  | string (minLength maxLength : Option Nat)
deriving DecidableEq, Repr

/-- `AllowedValues::integer_min`. -/
def AllowedValues.integerMin (min : Bound) : AllowedValues := .Integer (some min) none

/-- `impl fmt::Display for AllowedValues`. The `string(none, none)` case
panics in the source (`panic!` in the match arm), modelled as `none`. -/
def AllowedValues.display : AllowedValues → Option String
  | .Choice values =>
    some ("Allowed values are: " ++ String.intercalate ", " (values.map Value.display))
  | .Integer (some min) (some max) =>
    some ("Value must be an integer " ++ min.display ++ " and " ++ max.display ++ ".")
  | .Integer (some min) none =>
    some ("Value must be  an integer " ++ min.display ++ ".")
  | .Integer none (some max) =>
    some ("Value must be an integer " ++ max.display ++ ".")
  | .Integer none none => some "Value must be an integer."
  | .Float (some min) (some max) =>
    some ("Value must be a number " ++ min.display ++ " and " ++ max.display ++ ".")
  | .Float (some min) none =>
    some ("Value must be a number " ++ min.display ++ ".")
  | .Float none (some max) =>
    some ("Value must be a number " ++ max.display ++ ".")
  | .Float none none => some "Value must be a number."
  | .DateTime format =>
    some ("Must be a date time in the format `" ++ format ++ "`.")
  | .string (some min) (some max) =>
    some ("Value must be between " ++ toString min ++ " and " ++ toString max
      ++ " characters long.")
  | .string none (some max) =>
    some ("Value must be at most " ++ toString max ++ " characters long.")
  | .string (some min) none =>
    some ("Value must be at least " ++ toString min ++ " characters long.")
  | .string none none => none

/-! ### Error taxonomy (`src/error.rs`) -/

inductive ObjectKind where
  | Save | SolarSystem | Star | Planet | PlanetType | Item | ItemRecipe
deriving DecidableEq, Repr

/-- `impl fmt::Display for ObjectKind`. -/
def ObjectKind.display : ObjectKind → String
  | .Item => "item"
  | .ItemRecipe => "item recipe"
  | .Save => "save"
  | .SolarSystem => "solar system"
  | .Planet => "planet"
  | .Star => "star"
  | .PlanetType => "planet type"

/-- The actix `JsonPayloadError` as seen by this crate. Every variant carries
its `Display` rendering as a string: the payload itself lives in the external
actix/serde crates and only its rendering flows through this code. The
`other` variant models the `non_exhaustive` remainder matched by `_`. -/
inductive JsonError where
  | contentType (d : String)
  | serialize (d : String)
  | deserialize (d : String)
  | overflow (d : String)
  | overflowKnownLength (d : String)
  | payload (d : String)
  | other (d : String)
deriving DecidableEq, Repr

/-- Display of the wrapped actix error (the payload string itself). -/
def JsonError.display : JsonError → String
  | .contentType d | .serialize d | .deserialize d | .overflow d
  | .overflowKnownLength d | .payload d | .other d => d

/-- `TrackerError`. The wrapped transport/storage errors (`SqlError`,
`QueryStringError`, `PathError`) carry their `Display` rendering. -/
inductive TrackerError where
  | NotFound (o : ObjectKind) (k : List FieldValue)
  | UnexpectedNotFound (o : ObjectKind) (k : List FieldValue)
  | Duplicate (o : ObjectKind) (k : List FieldValue)
  | InvalidFieldValue (fv : FieldValue) (av : AllowedValues)
  | MissingRequiredField (n : String) (av : AllowedValues)
  | ConcurrentUpdate (o : ObjectKind) (k : List FieldValue)
  | SqlError (d : String)
  | JsonError (e : DspTracker.JsonError)
  | QueryStringError (d : String)
  | PathError (d : String)
deriving DecidableEq, Repr

/-- `TrackerError::invalid_field`. -/
def TrackerError.invalidField (fv : FieldValue) (av : AllowedValues) : TrackerError :=
  .InvalidFieldValue fv av

/-- `TrackerError::concurrent_update`. -/
def TrackerError.concurrentUpdate (o : ObjectKind) (k : List FieldValue) : TrackerError :=
  .ConcurrentUpdate o k

/-- `TrackerError::not_found`. -/
def TrackerError.notFound (o : ObjectKind) (k : List FieldValue) : TrackerError :=
  .NotFound o k

/-- The `thiserror`-generated `Display` for `TrackerError`. Returns `none`
when the rendering panics (only possible through
`AllowedValues::string(none, none)`). -/
def TrackerError.display : TrackerError → Option String
  | .NotFound o k =>
    some ("No " ++ (o.display ++ (" exists with " ++ (displayFieldValues k ++ "."))))
  | .UnexpectedNotFound o k =>
    some ("Unexpectedly did not find "
      ++ (o.display ++ (" with " ++ (displayFieldValues k ++ "."))))
  | .Duplicate o k =>
    some ("A " ++ (o.display ++ (" with the " ++ (displayFieldValues k ++ " already exists."))))
  | .InvalidFieldValue fv av =>
    (av.display).map fun avd =>
      "The value `" ++ (formatValue fv.value ++ ("` for the field "
        ++ (fv.name ++ (" is invalid. " ++ avd))))
  | .MissingRequiredField n av =>
    (av.display).map fun avd => "Missing required field " ++ (n ++ (". " ++ avd))
  | .ConcurrentUpdate o k =>
    some ("Another transaction has already updated the "
      ++ (o.display ++ (" with " ++ (displayFieldValues k ++ ". Please try again."))))
  | .SqlError d => some d
  | .JsonError e => some e.display
  | .QueryStringError d => some d
  | .PathError d => some d

/-- `TrackerError::is_internal_server_error`. -/
def TrackerError.isInternal : TrackerError → Bool
  | .UnexpectedNotFound .. => true
  | .SqlError .. => true
  | .JsonError (.serialize _) => true
  | _ => false

/-- `TrackerError::error_code`. -/
def TrackerError.errorCode : TrackerError → String
  | .NotFound .. => "NotFound"
  | .Duplicate .. => "Duplicate"
  | .InvalidFieldValue .. => "InvalidFieldValue"
  | .MissingRequiredField .. => "MissingRequiredField"
  | .ConcurrentUpdate .. => "ConcurrentUpdate"
  | .JsonError (.contentType _) => "UnsupportedContentType"
  | .JsonError (.serialize _) => "InternalServerError"
  | .JsonError (.deserialize _) => "InvalidJson"
  | .JsonError (.overflow _) => "PayloadTooLarge"
  | .JsonError (.overflowKnownLength _) => "PayloadTooLarge"
  | .JsonError (.payload _) => "InvalidPayload"
  | .JsonError (.other _) => "UnknownPayloadError"
  | .QueryStringError .. => "InvalidQueryString"
  | .PathError .. => "InvalidUrlPath"
  | .UnexpectedNotFound .. => "InternalServerError"
  | .SqlError .. => "InternalServerError"

/-- The fixed generic message substituted for internal-server-class errors. -/
def genericInternalMessage : String := "An Internal Server Error occurred."

/-- `ErrorResponse`. -/
structure ErrorResponse where
  errorCode : String
  message : String
  object : Option ObjectKind
  keys : Option (List FieldValue)
  field : Option FieldValue
  allowedValues : Option AllowedValues
deriving DecidableEq, Repr

/-- `TrackerError::to_error_response`; `none` when rendering the message
panics. -/
def TrackerError.toErrorResponse (e : TrackerError) : Option ErrorResponse :=
  (e.display).map fun msg =>
    let okfa : Option ObjectKind × Option (List FieldValue) × Option FieldValue
        × Option AllowedValues :=
      match e with
      | .NotFound o k => (some o, some k, none, none)
      | .Duplicate o k => (some o, some k, none, none)
      | .InvalidFieldValue fv av => (none, none, some fv, some av)
      | .MissingRequiredField n av => (none, none, some (FieldValue.nullValue n), some av)
      | .ConcurrentUpdate o k => (some o, some k, none, none)
      | _ => (none, none, none, none)
    { errorCode := e.errorCode
      message := if e.isInternal then genericInternalMessage else msg
      object := okfa.1
      keys := okfa.2.1
      field := okfa.2.2.1
      allowedValues := okfa.2.2.2 }

/-! ### Sort directives and page requests (`src/data.rs`) -/

/-- `FIRST_PAGE`. -/
def FIRST_PAGE : Nat := 1

/-- `MAX_PAGE_SIZE`. -/
def MAX_PAGE_SIZE : Nat := 500

/-- `DEFAULT_PAGE_SIZE`. -/
def DEFAULT_PAGE_SIZE : Nat := 100

inductive SortDirection where
  | Asc | Desc
deriving DecidableEq, Repr

/-- `strum` `AsRefStr` with `serialize_all = "lowercase"`. -/
def SortDirection.asRef : SortDirection → String
  | .Asc => "asc"
  | .Desc => "desc"

/-- `strum` `EnumString` with `ascii_case_insensitive`: parse a direction.
The error payload is the rejected input. -/
def SortDirection.fromStr (s : String) : Except String SortDirection :=
  if asciiLower s = "asc" then .ok .Asc
  else if asciiLower s = "desc" then .ok .Desc
  else .error s

/-- `SortDirection::iter()` (strum `EnumIter`), in declaration order. -/
def SortDirection.iterValues : List SortDirection := [.Asc, .Desc]

/-- The `Field` trait surface consumed by `Sort`/`PageRequest`:
`FromStr` (at the `Result` level), `name`, `values()` and `Default`. -/
structure FieldDef (F : Type) where
  fromStr : String → Except String F
  name : F → String
  values : List F
  defaultField : F

/-- `Sort<T>` (named `SortT` because `Sort` is reserved in Lean). -/
structure SortT (F : Type) where
  field : F
  direction : SortDirection
deriving DecidableEq, Repr

/-- `AllowedValues::choice(T::values())`: each field maps to
`Value::String(v.name())`. -/
def choiceOfValues {F : Type} (fd : FieldDef F) : AllowedValues :=
  .Choice (fd.values.map fun v => .str (fd.name v))

/-- `AllowedValues::choice(SortDirection::iter())`. -/
def choiceOfDirections : AllowedValues :=
  .Choice (SortDirection.iterValues.map fun d => .str d.asRef)

/-- `impl TryFrom<String> for Sort<T>`. -/
def SortT.tryFrom {F : Type} (fd : FieldDef F) (value : String) :
    Except TrackerError (SortT F) :=
  match splitOnceColon value with
  | some (fieldRaw, dirRaw) =>
    match fd.fromStr fieldRaw with
    | .error _ =>
      .error (TrackerError.invalidField (FieldValue.new "sort:field" (.str fieldRaw))
        (choiceOfValues fd))
    | .ok f =>
      match SortDirection.fromStr dirRaw with
      | .error _ =>
        .error (TrackerError.invalidField (FieldValue.new "sort:direction" (.str dirRaw))
          choiceOfDirections)
      | .ok d => .ok ⟨f, d⟩
  | none =>
    match fd.fromStr value with
    | .error _ =>
      .error (TrackerError.invalidField (FieldValue.new "sort:field" (.str value))
        (choiceOfValues fd))
    | .ok f => .ok ⟨f, .Asc⟩

/-- `PageRequestRaw`. -/
structure PageRequestRaw where
  page : Option String
  size : Option String
  sorts : List String
deriving DecidableEq, Repr

/-- `PageRequest<T>`. `page` and `size` are `u64` values (parsing bounds
them below `2^64`). -/
structure PageRequest (F : Type) where
  page : Nat
  size : Nat
  sorts : List (SortT F)
deriving DecidableEq, Repr

/-- Parse one optional raw numeric query parameter the way the normalizer
does (`u64::from_str_radix(_, 10)`, mapped onto `InvalidFieldValue` with an
`integer_min(inclusive(1))` domain; the bound literal is an `i32`). -/
def parseRawParam (fieldName : String) : Option String →
    Except TrackerError (Option Nat)
  | none => .ok none
  | some s =>
    match parseU64 s with
    | some v => .ok (some v)
    | none =>
      .error (TrackerError.invalidField (FieldValue.new fieldName (.str s))
        (AllowedValues.integerMin (Bound.mkInclusive (.int32 1))))

/-- `impl TryFrom<PageRequestRaw> for PageRequest<T>`: parse every sort token
in order, default to `Sort::default()` when none, parse/default `page` and
`size`, floor `page` at `FIRST_PAGE` and cap `size` at `MAX_PAGE_SIZE`. -/
def PageRequest.tryFrom {F : Type} (fd : FieldDef F) (raw : PageRequestRaw) :
    Except TrackerError (PageRequest F) := do
  let parsed ← raw.sorts.mapM (SortT.tryFrom fd)
  let sorts := if parsed.isEmpty then [⟨fd.defaultField, .Asc⟩] else parsed
  let page ← parseRawParam "page" raw.page
  let size ← parseRawParam "size" raw.size
  .ok { page := max (page.getD FIRST_PAGE) FIRST_PAGE
        size := min (size.getD DEFAULT_PAGE_SIZE) MAX_PAGE_SIZE
        sorts := sorts }

/-- `PageRequest::offset`: `(page - 1) * size` in wrapping `u64` arithmetic
(the subtraction is on `page ≥ 1` whenever the request came from the
normalizer, so only the multiplication can wrap). -/
def PageRequest.offset {F : Type} (r : PageRequest F) : Nat :=
  ((r.page - 1) * r.size) % 2 ^ 64

/-! ### Generated field enumerations (`field_names!` in `src/field.rs`,
instantiated in `src/game_save/api/data.rs`, `src/solar_system/api/data.rs`
and `src/star/api/data.rs`).

The generated `from_str` lowercases its input and tries the variants in
declaration order: a leaf variant matches on string equality with its
declared value; a nested variant matches when the input starts with its
declared prefix string, and then takes the slice `&lower[pfx.len() + 1 ..]`.
That slice panics when the input is shorter than `pfx.len() + 1` bytes
(notably on the bare prefix itself); `ParseOutcome.aborts` models this. -/

inductive ParseOutcome (F : Type) where
  | ok (f : F)
  | invalid (s : String)
  | aborts
deriving DecidableEq, Repr

/-- Strip `pfx` the way the generated nested arm does: slice off
`pfx.len() + 1` characters, aborting (panicking) past the end. -/
def stripNested (pfx lower : String) : Option String :=
  if strLen lower < strLen pfx + 1 then none
  else some (strDrop lower (strLen pfx + 1))

/-- `SaveFields` (game save), declaration order `Id`, `CreatedAt` (default),
`Name`, `Notes`. -/
inductive SaveFields where
  | Id | CreatedAt | Name | Notes
deriving DecidableEq, Repr

/-- Generated `FromStr` for `SaveFields` (no nested variants, never panics). -/
def SaveFields.fromStr (s : String) : ParseOutcome SaveFields :=
  let lower := asciiLower s
  if lower == "id" then .ok .Id
  else if lower == "created_at" then .ok .CreatedAt
  else if lower == "name" then .ok .Name
  else if lower == "notes" then .ok .Notes
  else .invalid s

/-- Generated `Field::name` for `SaveFields`. -/
def SaveFields.name : SaveFields → String
  | .Id => "id"
  | .CreatedAt => "created_at"
  | .Name => "name"
  | .Notes => "notes"

/-- Generated `Field::values()` for `SaveFields`, in declaration order. -/
def SaveFields.values : List SaveFields := [.Id, .CreatedAt, .Name, .Notes]

/-- `SolarSystemFields`, declaration order `Id`, `Save(SaveFields)` with
prefix `"save"`, `CreatedAt` (default), `Name`, `Notes`. -/
inductive SolarSystemFields where
  | Id | Save (f : SaveFields) | CreatedAt | Name | Notes
deriving DecidableEq, Repr

/-- Generated `FromStr` for `SolarSystemFields`. -/
def SolarSystemFields.fromStr (s : String) : ParseOutcome SolarSystemFields :=
  let lower := asciiLower s
  if lower == "id" then .ok .Id
  else if strStarts lower "save" then
    match stripNested "save" lower with
    | none => .aborts
    | some stripped =>
      if stripped.isEmpty then .ok (.Save .CreatedAt)
      else
        match SaveFields.fromStr stripped with
        | .ok f => .ok (.Save f)
        | .invalid e => .invalid e
        | .aborts => .aborts
  else if lower == "created_at" then .ok .CreatedAt
  else if lower == "name" then .ok .Name
  else if lower == "notes" then .ok .Notes
  else .invalid s

/-- Generated `Field::name` for `SolarSystemFields`. -/
def SolarSystemFields.name : SolarSystemFields → String
  | .Id => "id"
  | .Save f => "save." ++ f.name
  | .CreatedAt => "created_at"
  | .Name => "name"
  | .Notes => "notes"

/-- Generated `Field::values()` for `SolarSystemFields`. -/
def SolarSystemFields.values : List SolarSystemFields :=
  [.Id] ++ SaveFields.values.map .Save ++ [.CreatedAt, .Name, .Notes]

/-- `StarFields`, declaration order `Id`, `SolarSystem(SolarSystemFields)`
with prefix `"solar_system"`, `CreatedAt` (default), `SpectralClass` (whose
declared textual value is `"notes"`), `Luminosity`, `Radius`. -/
inductive StarFields where
  | Id | SolarSystem (f : SolarSystemFields) | CreatedAt | SpectralClass
  | Luminosity | Radius
deriving DecidableEq, Repr

/-- Generated `FromStr` for `StarFields`. -/
def StarFields.fromStr (s : String) : ParseOutcome StarFields :=
  let lower := asciiLower s
  if lower == "id" then .ok .Id
  else if strStarts lower "solar_system" then
    match stripNested "solar_system" lower with
    | none => .aborts
    | some stripped =>
      if stripped.isEmpty then .ok (.SolarSystem .CreatedAt)
      else
        match SolarSystemFields.fromStr stripped with
        | .ok f => .ok (.SolarSystem f)
        | .invalid e => .invalid e
        | .aborts => .aborts
  else if lower == "created_at" then .ok .CreatedAt
  else if lower == "notes" then .ok .SpectralClass
  else if lower == "luminosity" then .ok .Luminosity
  else if lower == "radius" then .ok .Radius
  else .invalid s

/-- Generated `Field::name` for `StarFields`. -/
def StarFields.name : StarFields → String
  | .Id => "id"
  | .SolarSystem f => "solar_system." ++ f.name
  | .CreatedAt => "created_at"
  | .SpectralClass => "notes"
  | .Luminosity => "luminosity"
  | .Radius => "radius"

/-- Generated `Field::values()` for `StarFields`. -/
def StarFields.values : List StarFields :=
  [.Id] ++ SolarSystemFields.values.map .SolarSystem
    ++ [.CreatedAt, .SpectralClass, .Luminosity, .Radius]

/-- The `Field` surface of `SaveFields` at the `Result` level, used to
instantiate the generic `Sort`/`PageRequest` combinators (its `from_str`
is total, so the `Except` interface is exact for it). -/
def saveFieldDef : FieldDef SaveFields where
  fromStr s :=
    match SaveFields.fromStr s with
    | .ok f => .ok f
    | .invalid e => .error e
    | .aborts => .error s
  name := SaveFields.name
  values := SaveFields.values
  defaultField := .CreatedAt

/-! ### IEEE-754 binary32 model for `PageMetadata::new` (`src/data.rs`)

`PageMetadata::new` computes `f32::ceil(total_results as f32 / size as f32)
as u64`. The operands here are nonnegative and far inside the normal `f32`
range, so each conversion and the division is "round the exact rational to
the nearest 24-bit-significand value, ties to even"; `f32::ceil` is exact on
`f32` (the ceiling of a representable value is representable); `as u64`
saturates. The model represents `f32` values by the exact rationals they
denote. -/

/-- Round a rational to the nearest integer, ties to even. -/
def rndHalfEven (q : ℚ) : ℤ :=
  if q - ⌊q⌋ < 1 / 2 then ⌊q⌋
  else if 1 / 2 < q - ⌊q⌋ then ⌊q⌋ + 1
  else if ⌊q⌋ % 2 = 0 then ⌊q⌋ else ⌊q⌋ + 1

/-- Round a positive (or zero) rational to the nearest `f32`-representable
value (24-bit significand, round half to even; subnormals and overflow do
not occur in the inputs this program produces). -/
def roundF32 (q : ℚ) : ℚ :=
  if q = 0 then 0
  else (rndHalfEven (q * 2 ^ ((23 : ℤ) - Int.log 2 q)) : ℚ)
    * 2 ^ (Int.log 2 q - (23 : ℤ))

/-- `n as f32` for a `u64` value. -/
def f32ofNat (n : Nat) : ℚ := roundF32 (n : ℚ)

/-- `f32` division of two representable values (one correctly-rounded
operation on the exact quotient). The model covers nonzero divisors:
`PageMetadata` is only ever rendered for a positive page size. -/
def f32div (a b : ℚ) : ℚ := roundF32 (a / b)

/-- `f32::ceil(x) as u64` for a nonnegative representable `x`: the ceiling
is exact, the cast saturates at `u64::MAX`. -/
def f32ceilToU64 (x : ℚ) : Nat := min (2 ^ 64 - 1) (Int.toNat ⌈x⌉)

/-- `PageMetadata`. -/
structure PageMetadata where
  totalResults : Nat
  totalPages : Nat
  currentPage : Nat
  nextPage : Option Nat
  prevPage : Option Nat
deriving DecidableEq, Repr

/-- `PageMetadata::new`. -/
def PageMetadata.new (page size totalResults : Nat) : PageMetadata :=
  let totalPages := f32ceilToU64 (f32div (f32ofNat totalResults) (f32ofNat size))
  { totalResults := totalResults
    totalPages := totalPages
    currentPage := page
    nextPage := if page < totalPages then some (page + 1) else none
    prevPage := if 1 < page then some (page - 1) else none }

/-- `Page<T>`. -/
structure Page (T : Type) where
  data : List T
  metadata : PageMetadata

/-- `Page::map`. -/
def Page.map {T U : Type} (f : T → U) (p : Page T) : Page U :=
  { data := p.data.map f, metadata := p.metadata }

/-- `Page::convert` (`map` through the `Into` conversion). -/
def Page.convert {T U : Type} (into : T → U) (p : Page T) : Page U :=
  p.map into

/-! ### Join tracking for solar-system search
(`src/solar_system/domain/actions.rs`) -/

/-- `GameSaveColumns::Table.to_string()` (`#[iden(rename = "saves")]`). -/
def saveTableName : String := "saves"

/-- Column references `(table, column)` per the `Iden` derives. -/
def SaveFields.column : SaveFields → String × String
  | .Id => ("saves", "id")
  | .CreatedAt => ("saves", "created_at")
  | .Name => ("saves", "name")
  | .Notes => ("saves", "notes")

/-- Generated `Field::column` for `SolarSystemFields`: leaves resolve in the
`solar_systems` table, the nested variant delegates. -/
def SolarSystemFields.column : SolarSystemFields → String × String
  | .Id => ("solar_systems", "id")
  | .Save f => f.column
  | .CreatedAt => ("solar_systems", "created_at")
  | .Name => ("solar_systems", "name")
  | .Notes => ("solar_systems", "notes")

/-- The observable effect of `add_sorts` on the select statement: the
ORDER BY clauses and the LEFT JOINs, each in emission order. -/
structure SelectModel where
  orderBys : List ((String × String) × SortDirection)
  joins : List String
deriving DecidableEq, Repr

/-- `add_join_for_field`: for a `Save(..)` field, join the `saves` relation
unless the tracker already holds it, recording it in the tracker. -/
def addJoinForField (field : SolarSystemFields) (stmt : SelectModel)
    (joinsTracker : List String) : SelectModel × List String :=
  match field with
  | .Save _ =>
    if joinsTracker.contains saveTableName then (stmt, joinsTracker)
    else ({ stmt with joins := stmt.joins ++ [saveTableName] },
      joinsTracker ++ [saveTableName])
  | _ => (stmt, joinsTracker)

/-- `add_sorts`: for each directive in order, track/emit its join and append
its ORDER BY clause. -/
def addSorts (sorts : List (SortT SolarSystemFields)) (stmt : SelectModel)
    (joinsTracker : List String) : SelectModel × List String :=
  match sorts with
  | [] => (stmt, joinsTracker)
  | sort :: rest =>
    let (stmt, joinsTracker) := addJoinForField sort.field stmt joinsTracker
    let stmt := { stmt with
      orderBys := stmt.orderBys ++ [(sort.field.column, sort.direction)] }
    addSorts rest stmt joinsTracker

/-- Whether a field is the nested `Save(..)` variant. -/
def SolarSystemFields.isSaveField : SolarSystemFields → Bool
  | .Save _ => true
  | _ => false

/-! ### Optimistic-concurrency update (`src/star/domain/actions.rs`,
`src/game_save/domain/actions.rs`)

The relational effect of the version-guarded UPDATE inside the request's
transaction: rows are keyed by `id` and carry a `version`; the UPDATE
touches exactly the rows matching both the id and the submitted version,
bumping `version` by one and replacing the payload columns. `rows_affected`
is the number of rows matched. -/

structure EntityRow (α : Type) where
  id : String
  version : Int
  payload : α
deriving DecidableEq, Repr

/-- One row after the guarded UPDATE ran against submission `e`. -/
def applyGuardedUpdate {α : Type} (e : EntityRow α) (row : EntityRow α) : EntityRow α :=
  if row.id = e.id ∧ row.version = e.version then
    { id := row.id, version := row.version + 1, payload := e.payload }
  else row

/-- `SELECT .. WHERE id = .. LIMIT 1` (first matching row, if any). -/
def lookupRow {α : Type} (db : List (EntityRow α)) (id : String) :
    Option (EntityRow α) :=
  db.find? fun row => row.id = id

/-- The `update` action: run the guarded UPDATE; when it affected no rows,
fail with `ConcurrentUpdate` over the entity's object kind and id column;
otherwise re-look the row up (`lookup` raises `NotFound` when absent). -/
def updateAction {α : Type} [DecidableEq α] (kind : ObjectKind)
    (db : List (EntityRow α)) (e : EntityRow α) :
    Except TrackerError (EntityRow α × List (EntityRow α)) :=
  let rowsUpdated :=
    (db.filter fun row => row.id = e.id ∧ row.version = e.version).length
  let db' := db.map (applyGuardedUpdate e)
  if rowsUpdated = 0 then
    .error (TrackerError.concurrentUpdate kind [FieldValue.new "id" (.uuid e.id)])
  else
    match lookupRow db' e.id with
    | some row => .ok (row, db')
    | none => .error (TrackerError.notFound kind [FieldValue.new "id" (.uuid e.id)])

/-! ## Theorems -/

/-- C10: `Page::map` (and therefore `Page::convert`) keeps the metadata
untouched and maps the data element-wise, preserving order and length. -/
theorem c10_page_map_frame {T U : Type} (p : Page T) (f : T → U) :
    (p.map f).metadata = p.metadata ∧ (p.map f).data = p.data.map f ∧
    (p.map f).data.length = p.data.length ∧
    (p.convert f).metadata = p.metadata ∧ (p.convert f).data = p.data.map f :=
  ⟨rfl, rfl, by simp [Page.map], rfl, rfl⟩

/-- C4: for every concrete instance of the three generated field
enumerations, parsing the canonical name round-trips. -/
theorem c4_name_roundtrip :
    (∀ f : SaveFields, SaveFields.fromStr f.name = .ok f) ∧
    (∀ f : SolarSystemFields, SolarSystemFields.fromStr f.name = .ok f) ∧
    (∀ f : StarFields, StarFields.fromStr f.name = .ok f) := by
  refine ⟨?_, ?_, ?_⟩
  · intro f; cases f <;> decide
  · intro f
    rcases f with _ | f | _ | _ | _
    case Save => cases f <;> decide
    all_goals decide
  · intro f
    rcases f with _ | f | _ | _ | _ | _
    case SolarSystem =>
      rcases f with _ | g | _ | _ | _
      case Save => cases g <;> decide
      all_goals decide
    all_goals decide

/-- C3: the generated `from_str` panics on the bare nested prefix (the slice
`&lower[pfx.len() + 1 ..]` is out of bounds there) instead of resolving to
the nested default; inputs one character longer do resolve to the default. -/
theorem c3_bare_prefix_aborts :
    SolarSystemFields.fromStr "save" = .aborts ∧
    StarFields.fromStr "solar_system" = .aborts ∧
    SolarSystemFields.fromStr "save." = .ok (.Save .CreatedAt) ∧
    StarFields.fromStr "solar_system." = .ok (.SolarSystem .CreatedAt) := by
  decide

/-- One step of the tracker: `add_join_for_field` as a conditional update. -/
theorem addJoinForField_eq (field : SolarSystemFields) (stmt : SelectModel)
    (tracker : List String) :
    addJoinForField field stmt tracker =
      if field.isSaveField && !(tracker.contains saveTableName)
      then ({ stmt with joins := stmt.joins ++ [saveTableName] },
        tracker ++ [saveTableName])
      else (stmt, tracker) := by
  cases field with
  | Save f =>
    simp only [addJoinForField, SolarSystemFields.isSaveField, Bool.true_and]
    by_cases hm : saveTableName ∈ tracker
    · rw [if_pos (by simpa using hm), if_neg (by simp [hm])]
    · rw [if_neg (by simpa using hm), if_pos (by simp [hm])]
  | Id => simp [addJoinForField, SolarSystemFields.isSaveField]
  | CreatedAt => simp [addJoinForField, SolarSystemFields.isSaveField]
  | Name => simp [addJoinForField, SolarSystemFields.isSaveField]
  | Notes => simp [addJoinForField, SolarSystemFields.isSaveField]

/-- Unfolding of `addSorts` on a cons cell. -/
theorem addSorts_cons (sort : SortT SolarSystemFields)
    (rest : List (SortT SolarSystemFields)) (stmt : SelectModel)
    (tracker : List String) :
    addSorts (sort :: rest) stmt tracker =
      addSorts rest
        { (addJoinForField sort.field stmt tracker).1 with
          orderBys := (addJoinForField sort.field stmt tracker).1.orderBys
            ++ [(sort.field.column, sort.direction)] }
        (addJoinForField sort.field stmt tracker).2 := rfl

/-- The join tracker's effect of `add_sorts`, for an arbitrary starting
statement and tracker. -/
theorem addSorts_joins_spec (sorts : List (SortT SolarSystemFields)) :
    ∀ (stmt : SelectModel) (tracker : List String),
      (addSorts sorts stmt tracker).1.joins =
        stmt.joins ++ (if !(tracker.contains saveTableName)
            && sorts.any (fun s => s.field.isSaveField) then [saveTableName] else []) ∧
      (addSorts sorts stmt tracker).2 =
        tracker ++ (if !(tracker.contains saveTableName)
            && sorts.any (fun s => s.field.isSaveField) then [saveTableName] else []) := by
  induction sorts with
  | nil => intro stmt tracker; simp [addSorts]
  | cons sort rest ih =>
    intro stmt tracker
    rw [addSorts_cons, addJoinForField_eq]
    by_cases hb : sort.field.isSaveField = true
    · by_cases hm : saveTableName ∈ tracker
      · rw [if_neg (by simp [hb, hm])]
        have h := ih { stmt with orderBys := stmt.orderBys
          ++ [(sort.field.column, sort.direction)] } tracker
        refine ⟨?_, ?_⟩
        · rw [h.1]; simp [hm]
        · rw [h.2]; simp [hm]
      · rw [if_pos (by simp [hb, hm])]
        have h := ih { stmt with
          joins := stmt.joins ++ [saveTableName],
          orderBys := stmt.orderBys ++ [(sort.field.column, sort.direction)] }
          (tracker ++ [saveTableName])
        refine ⟨?_, ?_⟩
        · rw [h.1]; simp [hm, hb, List.append_assoc]
        · rw [h.2]; simp [hm, hb, List.append_assoc]
    · rw [if_neg (by simp [hb])]
      have h := ih { stmt with orderBys := stmt.orderBys
        ++ [(sort.field.column, sort.direction)] } tracker
      simp only [Bool.not_eq_true] at hb
      refine ⟨?_, ?_⟩
      · rw [h.1]; simp [hb]
      · rw [h.2]; simp [hb]

/-- C5: against an empty tracker, `add_sorts` emits exactly one left join to
the `saves` relation when some directive sorts through the nested `Save`
field and none otherwise — never two — and the emitted join list is
duplicate-free. -/
theorem c5_joins_deduplicated (sorts : List (SortT SolarSystemFields)) :
    (addSorts sorts ⟨[], []⟩ []).1.joins =
      (if sorts.any (fun s => s.field.isSaveField) then [saveTableName] else []) ∧
    (addSorts sorts ⟨[], []⟩ []).1.joins.Nodup ∧
    (addSorts sorts ⟨[], []⟩ []).1.joins.length ≤ 1 := by
  have h := (addSorts_joins_spec sorts ⟨[], []⟩ []).1
  simp only [List.contains_nil, Bool.not_false, Bool.true_and, List.nil_append] at h
  refine ⟨h, ?_, ?_⟩ <;> rw [h] <;> split <;> simp

/-- C9: the version-guarded update fails with `ConcurrentUpdate` (carrying
the object kind and the id key) exactly when no stored row matches the
submitted id and version; it succeeds only when at least one row matched,
and then returns the freshly looked-up row. -/
theorem c9_stale_version_update {α : Type} [DecidableEq α] (kind : ObjectKind)
    (db : List (EntityRow α)) (e : EntityRow α) :
    ((¬ ∃ r ∈ db, r.id = e.id ∧ r.version = e.version) →
      updateAction kind db e =
        .error (TrackerError.concurrentUpdate kind [FieldValue.new "id" (.uuid e.id)])) ∧
    (∀ out db', updateAction kind db e = .ok (out, db') →
      (∃ r ∈ db, r.id = e.id ∧ r.version = e.version) ∧
      db' = db.map (applyGuardedUpdate e) ∧ lookupRow db' e.id = some out) := by
  constructor
  · intro h
    have hfil : db.filter (fun row => row.id = e.id ∧ row.version = e.version) = [] := by
      rw [List.filter_eq_nil_iff]
      intro a ha
      simp only [decide_eq_true_eq, not_and]
      intro h1 h2
      exact h ⟨a, ha, h1, h2⟩
    unfold updateAction
    rw [hfil]
    simp
  · intro out db' h
    unfold updateAction at h
    by_cases hz :
        (db.filter fun row => row.id = e.id ∧ row.version = e.version).length = 0
    · rw [if_pos hz] at h
      exact absurd h (by simp)
    · rw [if_neg hz] at h
      have hmem : ∃ r ∈ db, r.id = e.id ∧ r.version = e.version := by
        rcases hne : db.filter (fun row => row.id = e.id ∧ row.version = e.version) with
          _ | ⟨a, rest⟩
        · exact absurd (by rw [hne]; rfl) hz
        · have ha : a ∈ db.filter (fun row => row.id = e.id ∧ row.version = e.version) := by
            rw [hne]; exact List.mem_cons_self a rest
          have := List.of_mem_filter ha
          simp only [decide_eq_true_eq] at this
          exact ⟨a, List.mem_of_mem_filter ha, this⟩
      rcases hlk : lookupRow (db.map (applyGuardedUpdate e)) e.id with _ | row
      · rw [hlk] at h
        exact absurd h (by simp)
      · rw [hlk] at h
        simp only [Except.ok.injEq, Prod.mk.injEq] at h
        exact ⟨hmem, h.2.symm, by rw [← h.1, ← h.2]; exact hlk⟩

/-- C9 witness: a concrete stale-version submission is rejected with
`ConcurrentUpdate`. -/
theorem c9_stale_version_update_witness :
    updateAction ObjectKind.Star [⟨"7b6a", 2, (0 : Nat)⟩] ⟨"7b6a", 1, (1 : Nat)⟩ =
      .error (TrackerError.concurrentUpdate .Star [FieldValue.new "id" (.uuid "7b6a")]) :=
  (c9_stale_version_update ObjectKind.Star [⟨"7b6a", 2, (0 : Nat)⟩] ⟨"7b6a", 1, (1 : Nat)⟩).1
    (by decide)

/-- The variants that merely wrap an external transport/storage error's
display text. -/
def TrackerError.isWrapped : TrackerError → Bool
  | .SqlError .. => true
  | .JsonError .. => true
  | .QueryStringError .. => true
  | .PathError .. => true
  | _ => false

/-- Two strings differ when the left one starts with a block that disagrees
with the right one at some index. -/
theorem append_ne_at {pre rest other : String} {i : Nat} (hi : i < pre.data.length)
    (h : pre.data[i]? ≠ other.data[i]?) : pre ++ rest ≠ other := by
  intro e
  apply h
  rw [← e, String.data_append, List.getElem?_append, if_pos hi]

/-- A structured (non-wrapped) non-internal error never renders to the
generic internal-error string: each template starts with a fixed fragment
that disagrees with it. -/
theorem display_ne_generic (e : TrackerError) (m : String)
    (hw : e.isWrapped = false) (hni : e.isInternal = false)
    (hd : e.display = some m) : m ≠ genericInternalMessage := by
  cases e with
  | NotFound o k =>
    simp only [TrackerError.display, Option.some.injEq] at hd
    rw [← hd]
    exact append_ne_at (i := 0) (by decide) (by decide)
  | UnexpectedNotFound o k => simp [TrackerError.isInternal] at hni
  | Duplicate o k =>
    simp only [TrackerError.display, Option.some.injEq] at hd
    rw [← hd]
    exact append_ne_at (i := 1) (by decide) (by decide)
  | InvalidFieldValue fv av =>
    simp only [TrackerError.display, Option.map_eq_some'] at hd
    obtain ⟨avd, _, hd⟩ := hd
    rw [← hd]
    exact append_ne_at (i := 0) (by decide) (by decide)
  | MissingRequiredField n av =>
    simp only [TrackerError.display, Option.map_eq_some'] at hd
    obtain ⟨avd, _, hd⟩ := hd
    rw [← hd]
    exact append_ne_at (i := 0) (by decide) (by decide)
  | ConcurrentUpdate o k =>
    simp only [TrackerError.display, Option.some.injEq] at hd
    rw [← hd]
    exact append_ne_at (i := 2) (by decide) (by decide)
  | SqlError d => simp [TrackerError.isWrapped] at hw
  | JsonError j => simp [TrackerError.isWrapped] at hw
  | QueryStringError d => simp [TrackerError.isWrapped] at hw
  | PathError d => simp [TrackerError.isWrapped] at hw

/-- C8: whenever `to_error_response` produces a response, an
internal-server-class error's message is replaced by the fixed generic
string, every other error keeps its own display text, and — for every
variant whose text this crate controls (all non-wrapped ones) — the message
equals the generic string exactly when the error is internal-class. -/
theorem c8_internal_message_masking (e : TrackerError) (r : ErrorResponse)
    (h : e.toErrorResponse = some r) :
    (e.isInternal = true → r.message = genericInternalMessage) ∧
    (e.isInternal = false → e.display = some r.message) ∧
    (e.isWrapped = false → (r.message = genericInternalMessage ↔ e.isInternal = true)) := by
  unfold TrackerError.toErrorResponse at h
  rw [Option.map_eq_some'] at h
  obtain ⟨m, hd, hr⟩ := h
  have hmsg : r.message = if e.isInternal then genericInternalMessage else m := by
    rw [← hr]
  refine ⟨?_, ?_, ?_⟩
  · intro hi; rw [hmsg, hi]; simp
  · intro hni; rw [hd, hmsg, hni]; simp
  · intro hw
    constructor
    · intro hm
      by_contra hni
      rw [Bool.not_eq_true] at hni
      refine display_ne_generic e m hw hni hd ?_
      rw [hmsg, hni] at hm
      simpa using hm
    · intro hi; rw [hmsg, hi]; simp

/-- C8 witness: `UnexpectedNotFound` leaves the process boundary with the
generic message. -/
theorem c8_internal_message_masking_witness :
    ({ errorCode := "InternalServerError", message := genericInternalMessage,
       object := none, keys := none, field := none,
       allowedValues := none } : ErrorResponse).message = genericInternalMessage :=
  (c8_internal_message_masking (.UnexpectedNotFound .Save [])
    { errorCode := "InternalServerError", message := genericInternalMessage,
      object := none, keys := none, field := none, allowedValues := none }
    rfl).1 rfl

/-- C6: `Sort::try_from` implements `field_name(':' direction)?`: a
colon-free token parses the whole string as the field and defaults the
direction to ascending; with a colon, the field part and then the direction
part are parsed; an unknown field fails with `InvalidFieldValue` named
`sort:field` allowing `Choice` over `F::values()`; a bad direction fails
with `InvalidFieldValue` named `sort:direction` allowing `asc`/`desc`; and
direction parsing is exactly case-insensitive `asc`/`desc`. -/
theorem c6_sort_parse_grammar {F : Type} (fd : FieldDef F) (t : String) :
    (∀ f, splitOnceColon t = none → fd.fromStr t = .ok f →
      SortT.tryFrom fd t = .ok ⟨f, .Asc⟩) ∧
    (∀ a b f d, splitOnceColon t = some (a, b) → fd.fromStr a = .ok f →
      SortDirection.fromStr b = .ok d → SortT.tryFrom fd t = .ok ⟨f, d⟩) ∧
    (∀ s, splitOnceColon t = none → fd.fromStr t = .error s →
      SortT.tryFrom fd t = .error (TrackerError.invalidField
        (FieldValue.new "sort:field" (.str t))
        (.Choice (fd.values.map fun v => .str (fd.name v))))) ∧
    (∀ a b s, splitOnceColon t = some (a, b) → fd.fromStr a = .error s →
      SortT.tryFrom fd t = .error (TrackerError.invalidField
        (FieldValue.new "sort:field" (.str a))
        (.Choice (fd.values.map fun v => .str (fd.name v))))) ∧
    (∀ a b f s, splitOnceColon t = some (a, b) → fd.fromStr a = .ok f →
      SortDirection.fromStr b = .error s →
      SortT.tryFrom fd t = .error (TrackerError.invalidField
        (FieldValue.new "sort:direction" (.str b))
        (.Choice [.str "asc", .str "desc"]))) ∧
    (∀ s, (SortDirection.fromStr s = .ok .Asc ↔ asciiLower s = "asc") ∧
      (SortDirection.fromStr s = .ok .Desc ↔ asciiLower s = "desc")) := by
  refine ⟨?_, ?_, ?_, ?_, ?_, ?_⟩
  · intro f h1 h2
    simp [SortT.tryFrom, h1, h2]
  · intro a b f d h1 h2 h3
    simp [SortT.tryFrom, h1, h2, h3]
  · intro s h1 h2
    simp [SortT.tryFrom, h1, h2, choiceOfValues]
  · intro a b s h1 h2
    simp [SortT.tryFrom, h1, h2, choiceOfValues]
  · intro a b f s h1 h2 h3
    simp [SortT.tryFrom, h1, h2, h3, choiceOfDirections, SortDirection.iterValues,
      SortDirection.asRef]
  · intro s
    unfold SortDirection.fromStr
    by_cases ha : asciiLower s = "asc"
    · simp [ha]
    · by_cases hb : asciiLower s = "desc" <;> simp [ha, hb]

/-- C6 witness: `"name:desc"` parses to the descending name sort against
the game-save field set. -/
theorem c6_sort_parse_grammar_witness :
    SortT.tryFrom saveFieldDef "name:desc" = .ok ⟨.Name, .Desc⟩ :=
  (c6_sort_parse_grammar saveFieldDef "name:desc").2.1 "name" "desc"
    SaveFields.Name .Desc rfl rfl rfl

/-- Parsing every sort token successfully makes the whole `mapM` succeed
with one directive per token. -/
theorem mapM_sorts_ok {F : Type} (fd : FieldDef F) :
    ∀ ts : List String, (∀ t ∈ ts, ∃ st, SortT.tryFrom fd t = .ok st) →
      ∃ l, ts.mapM (SortT.tryFrom fd) = .ok l ∧ l.length = ts.length := by
  intro ts
  induction ts with
  | nil => exact fun _ => ⟨[], rfl, rfl⟩
  | cons t ts ih =>
    intro h
    obtain ⟨st, hst⟩ := h t (List.mem_cons_self t ts)
    obtain ⟨l, hl, hlen⟩ := ih fun u hu => h u (List.mem_cons_of_mem _ hu)
    refine ⟨st :: l, ?_, by simp [hlen]⟩
    rw [List.mapM_cons, hst, hl]
    rfl

/-- Shape of the normalizer's output when page, size and all sort tokens
parse: the request is accepted, the page is floored at 1, the size is
capped at 500 (and is exactly `min v 500` for a parsed size `v`), and the
sort list is never empty. -/
theorem tryFrom_normalized {F : Type} (fd : FieldDef F) (raw : PageRequestRaw)
    (hp : ∀ s, raw.page = some s → (parseU64 s).isSome = true)
    (hs : ∀ s, raw.size = some s → (parseU64 s).isSome = true)
    (hts : ∀ t ∈ raw.sorts, ∃ st, SortT.tryFrom fd t = .ok st) :
    ∃ r, PageRequest.tryFrom fd raw = .ok r ∧ 1 ≤ r.page ∧ r.size ≤ 500 ∧
      r.sorts ≠ [] ∧
      (∀ s v, raw.size = some s → parseU64 s = some v → r.size = min v 500) := by
  obtain ⟨l, hl, hlen⟩ := mapM_sorts_ok fd raw.sorts hts
  obtain ⟨pOpt, hpo⟩ : ∃ x, parseRawParam "page" raw.page = .ok x := by
    rcases hpg : raw.page with _ | s
    · exact ⟨none, rfl⟩
    · have hsm := hp s hpg
      rcases hv : parseU64 s with _ | v
      · rw [hv] at hsm; simp at hsm
      · exact ⟨some v, by simp [parseRawParam, hv]⟩
  obtain ⟨sOpt, hso, hsoEq⟩ : ∃ x, parseRawParam "size" raw.size = .ok x ∧
      (∀ s v, raw.size = some s → parseU64 s = some v → x = some v) := by
    rcases hsg : raw.size with _ | s
    · exact ⟨none, rfl, by intro s v hc; simp at hc⟩
    · have hsm := hs s hsg
      rcases hv : parseU64 s with _ | v
      · rw [hv] at hsm; simp at hsm
      · refine ⟨some v, by simp [parseRawParam, hv], ?_⟩
        intro s' v' hc hv'
        rw [Option.some.injEq] at hc
        rw [← hc, hv, Option.some.injEq] at hv'
        rw [hv']
  refine ⟨⟨max (pOpt.getD FIRST_PAGE) FIRST_PAGE,
    min (sOpt.getD DEFAULT_PAGE_SIZE) MAX_PAGE_SIZE,
    if l.isEmpty then [⟨fd.defaultField, .Asc⟩] else l⟩, ?_, ?_, ?_, ?_, ?_⟩
  · unfold PageRequest.tryFrom
    rw [hl, hpo, hso]
    rfl
  · exact Nat.le_max_right _ _
  · exact Nat.min_le_right _ _
  · simp only [ne_eq]
    split
    · simp
    · next hne => simp only [List.isEmpty_iff] at hne ⊢; exact hne
  · intro s v hraw hv
    simp only
    rw [hsoEq s v hraw hv]
    rfl

/-- C1 (amended): when the raw page/size strings (if present) parse as
base-10 `u64` and every sort token parses, normalization succeeds with
`page ≥ 1`, `size ≤ 500` and a non-empty sort list; a raw size of
`"10000"` is capped to `500`, while a raw size of `"0"` passes through as
`0` (the normalizer has no minimum clamp on `size`). -/
theorem c1_normalizer_bounds {F : Type} (fd : FieldDef F) (raw : PageRequestRaw)
    (hp : ∀ s, raw.page = some s → (parseU64 s).isSome = true)
    (hs : ∀ s, raw.size = some s → (parseU64 s).isSome = true)
    (hts : ∀ t ∈ raw.sorts, ∃ st, SortT.tryFrom fd t = .ok st) :
    ∃ r, PageRequest.tryFrom fd raw = .ok r ∧ FIRST_PAGE ≤ r.page ∧
      r.size ≤ MAX_PAGE_SIZE ∧ r.sorts ≠ [] ∧
      (raw.size = some "10000" → r.size = MAX_PAGE_SIZE) ∧
      (raw.size = some "0" → r.size = 0) := by
  obtain ⟨r, h1, h2, h3, h4, h5⟩ := tryFrom_normalized fd raw hp hs hts
  refine ⟨r, h1, h2, h3, h4, ?_, ?_⟩
  · intro h
    rw [h5 "10000" 10000 h (by decide)]
    decide
  · intro h
    rw [h5 "0" 0 h (by decide)]
    decide

/-- C1 counterexample: the raw size string `"0"` parses, yet the normalized
size is `0`, outside the claimed `[1, 500]` interval. -/
theorem c1_size_zero_counterexample :
    PageRequest.tryFrom saveFieldDef { page := none, size := some "0", sorts := [] } =
      .ok { page := 1, size := 0, sorts := [⟨.CreatedAt, .Asc⟩] } ∧
    ¬(1 ≤ ({ page := 1, size := 0, sorts := [⟨.CreatedAt, .Asc⟩] } :
      PageRequest SaveFields).size) :=
  ⟨rfl, by decide⟩

/-- C1 witness: a concrete request with page `"2"`, size `"10000"` and one
sort token normalizes within the amended bounds. -/
theorem c1_normalizer_bounds_witness :
    ∃ r, PageRequest.tryFrom saveFieldDef
        { page := some "2", size := some "10000", sorts := ["name:desc"] } = .ok r ∧
      FIRST_PAGE ≤ r.page ∧ r.size ≤ MAX_PAGE_SIZE ∧ r.sorts ≠ [] ∧
      (({ page := some "2", size := some "10000", sorts := ["name:desc"] } :
          PageRequestRaw).size = some "10000" → r.size = MAX_PAGE_SIZE) ∧
      (({ page := some "2", size := some "10000", sorts := ["name:desc"] } :
          PageRequestRaw).size = some "0" → r.size = 0) :=
  c1_normalizer_bounds saveFieldDef
    { page := some "2", size := some "10000", sorts := ["name:desc"] }
    (by intro s h; rw [Option.some.injEq] at h; rw [← h]; decide)
    (by intro s h; rw [Option.some.injEq] at h; rw [← h]; decide)
    (by
      intro t ht
      rw [List.mem_singleton] at ht
      exact ⟨⟨.Name, .Desc⟩, by rw [ht]; rfl⟩)

/-- C7 (amended): for every normalized request, `page ≥ 1` (so `page - 1`
never underflows) and `offset()` is `(page - 1) * size` reduced modulo
`2^64`, hence exactly `(page - 1) * size` whenever that product fits in a
`u64`. -/
theorem c7_offset_semantics {F : Type} (fd : FieldDef F) (raw : PageRequestRaw)
    (hp : ∀ s, raw.page = some s → (parseU64 s).isSome = true)
    (hs : ∀ s, raw.size = some s → (parseU64 s).isSome = true)
    (hts : ∀ t ∈ raw.sorts, ∃ st, SortT.tryFrom fd t = .ok st) :
    ∃ r, PageRequest.tryFrom fd raw = .ok r ∧ 1 ≤ r.page ∧
      r.offset = ((r.page - 1) * r.size) % 2 ^ 64 ∧
      ((r.page - 1) * r.size < 2 ^ 64 → r.offset = (r.page - 1) * r.size) := by
  obtain ⟨r, h1, h2, _, _, _⟩ := tryFrom_normalized fd raw hp hs hts
  exact ⟨r, h1, h2, rfl, fun h => Nat.mod_eq_of_lt h⟩

/-- C7 counterexample: the maximal parseable page string normalizes, but
`(page - 1) * size` exceeds `u64::MAX` and `offset()` wraps, so `offset()`
is not the exact product. -/
theorem c7_offset_wrap_counterexample :
    PageRequest.tryFrom saveFieldDef
        { page := some "18446744073709551615", size := none, sorts := [] } =
      .ok { page := 18446744073709551615, size := 100,
            sorts := [⟨.CreatedAt, .Asc⟩] } ∧
    ({ page := 18446744073709551615, size := 100, sorts := [⟨.CreatedAt, .Asc⟩] } :
        PageRequest SaveFields).offset ≠ (18446744073709551615 - 1) * 100 :=
  ⟨rfl, by decide⟩

/-- C7 witness: a concrete in-range request where the offset is the exact
product. -/
theorem c7_offset_semantics_witness :
    ∃ r, PageRequest.tryFrom saveFieldDef
        { page := some "3", size := some "10", sorts := [] } = .ok r ∧
      1 ≤ r.page ∧ r.offset = ((r.page - 1) * r.size) % 2 ^ 64 ∧
      ((r.page - 1) * r.size < 2 ^ 64 → r.offset = (r.page - 1) * r.size) :=
  c7_offset_semantics saveFieldDef { page := some "3", size := some "10", sorts := [] }
    (by intro s h; rw [Option.some.injEq] at h; rw [← h]; decide)
    (by intro s h; rw [Option.some.injEq] at h; rw [← h]; decide)
    (by intro t ht; cases ht)

/-! ### Rounding lemmas for the binary32 model -/

/-- Round-half-even fixes integers. -/
theorem rndHalfEven_intCast (n : ℤ) : rndHalfEven (n : ℚ) = n := by
  unfold rndHalfEven
  rw [Int.floor_intCast]
  norm_num

/-- Round-half-even moves a rational down by at most one half. -/
theorem q_sub_rndHalfEven_le (q : ℚ) : q - rndHalfEven q ≤ 1 / 2 := by
  have h0 : (⌊q⌋ : ℚ) ≤ q := Int.floor_le q
  have h1 : q < ⌊q⌋ + 1 := Int.lt_floor_add_one q
  unfold rndHalfEven
  split_ifs with ha hb hc <;> push_cast <;> linarith

/-- Round-half-even moves a rational up by at most one half. -/
theorem rndHalfEven_sub_q_le (q : ℚ) : (rndHalfEven q : ℚ) - q ≤ 1 / 2 := by
  have h0 : (⌊q⌋ : ℚ) ≤ q := Int.floor_le q
  have h1 : q < ⌊q⌋ + 1 := Int.lt_floor_add_one q
  unfold rndHalfEven
  split_ifs with ha hb hc <;> push_cast <;> linarith

/-- Round-half-even never overshoots an integer upper bound. -/
theorem rndHalfEven_le_of_le {q : ℚ} {m : ℤ} (h : q ≤ m) : rndHalfEven q ≤ m := by
  have hf : ⌊q⌋ ≤ m := by
    have := Int.floor_le_floor h
    rwa [Int.floor_intCast] at this
  have h0 : (⌊q⌋ : ℚ) ≤ q := Int.floor_le q
  unfold rndHalfEven
  split_ifs with ha hb hc
  · exact hf
  · have hlt : (⌊q⌋ : ℚ) < (m : ℚ) := by linarith
    have : ⌊q⌋ < m := by exact_mod_cast hlt
    omega
  · exact hf
  · push_neg at ha
    have hlt : (⌊q⌋ : ℚ) < (m : ℚ) := by linarith
    have : ⌊q⌋ < m := by exact_mod_cast hlt
    omega

/-- A value whose scaled significand is an integer is returned unchanged. -/
theorem roundF32_eq_self {q : ℚ} (z : ℤ)
    (hz : q * 2 ^ ((23 : ℤ) - Int.log 2 q) = (z : ℚ)) (hq : q ≠ 0) :
    roundF32 q = q := by
  unfold roundF32
  rw [if_neg hq, hz, rndHalfEven_intCast, ← hz, mul_assoc,
    ← zpow_add₀ (by norm_num : (2 : ℚ) ≠ 0),
    show (23 : ℤ) - Int.log 2 q + (Int.log 2 q - 23) = 0 by ring, zpow_zero, mul_one]

/-- Every `u64` value up to `2^24` is exactly representable in `f32`. -/
theorem roundF32_natCast (n : ℕ) (h : n ≤ 2 ^ 24) : roundF32 (n : ℚ) = n := by
  rcases Nat.eq_zero_or_pos n with h0 | hpos
  · subst h0; simp [roundF32]
  have hq : ((n : ℚ)) ≠ 0 := Nat.cast_ne_zero.mpr hpos.ne'
  have hlogn : Int.log 2 ((n : ℕ) : ℚ) = (Nat.log 2 n : ℤ) := Int.log_natCast 2 n
  have hk24 : Nat.log 2 n ≤ 24 := by
    have := Nat.log_mono_right (b := 2) h
    rwa [Nat.log_pow (by norm_num)] at this
  by_cases hk23 : Nat.log 2 n ≤ 23
  · refine roundF32_eq_self ((n * 2 ^ (23 - Nat.log 2 n) : ℕ) : ℤ) ?_ hq
    rw [hlogn, show (23 : ℤ) - (Nat.log 2 n : ℤ) = ((23 - Nat.log 2 n : ℕ) : ℤ) by omega,
      zpow_natCast]
    push_cast
    ring
  · have hk : Nat.log 2 n = 24 := by omega
    have h2n : ((2 : ℚ) ^ (24 : ℤ)) ≤ (n : ℚ) := by
      have := Int.zpow_log_le_self (b := 2) (by norm_num) (r := ((n : ℕ) : ℚ))
        (by exact_mod_cast hpos)
      rwa [hlogn, hk] at this
    have hn : n = 2 ^ 24 := by
      have hle : ((2 ^ 24 : ℕ) : ℚ) ≤ (n : ℚ) := by
        rw [show ((2 ^ 24 : ℕ) : ℚ) = (2 : ℚ) ^ (24 : ℤ) by push_cast; norm_num]
        exact h2n
      have := (Nat.cast_le (α := ℚ)).mp hle
      omega
    refine roundF32_eq_self (2 ^ 23) ?_ hq
    rw [hlogn, hk, hn]
    rw [show ((2 ^ 24 : ℕ) : ℚ) = (2 : ℚ) ^ (24 : ℤ) by push_cast; norm_num,
      ← zpow_add₀ (by norm_num : (2 : ℚ) ≠ 0)]
    norm_num

/-- The key exactness property: for exactly representable operands up to
`2^24`, the ceiling of the rounded quotient is the exact ceiling of the
true quotient. -/
theorem ceil_roundF32_div (a b : ℕ) (ha : a ≤ 2 ^ 24) (hb1 : 1 ≤ b)
    (hb : b ≤ 2 ^ 24) :
    ⌈roundF32 ((a : ℚ) / b)⌉ = ⌈(a : ℚ) / b⌉ := by
  rcases Nat.eq_zero_or_pos a with h0 | hpos
  · subst h0; simp [roundF32]
  have hbq : (0 : ℚ) < b := by exact_mod_cast hb1
  set q : ℚ := (a : ℚ) / b with hqdef
  have hq0 : 0 < q := div_pos (by exact_mod_cast hpos) hbq
  have hqa : q ≤ a := div_le_self (by positivity) (by exact_mod_cast hb1)
  set e := Int.log 2 q with hedef
  have h2e : (2 : ℚ) ^ e ≤ q := Int.zpow_log_le_self (by norm_num) hq0
  by_cases hx : ∃ z : ℤ, q * 2 ^ ((23 : ℤ) - e) = (z : ℚ)
  · obtain ⟨z, hz⟩ := hx
    rw [hedef] at hz
    rw [roundF32_eq_self z hz hq0.ne']
  · push_neg at hx
    have hq24 : q ≤ ((2 : ℚ) ^ (24 : ℤ)) := by
      refine le_trans hqa ?_
      rw [show ((2 : ℚ) ^ (24 : ℤ)) = ((2 ^ 24 : ℕ) : ℚ) by push_cast; norm_num]
      exact_mod_cast ha
    have he23 : e ≤ 23 := by
      by_contra hgt
      push_neg at hgt
      have h24 : (24 : ℤ) ≤ e := hgt
      have hq24' : (2 : ℚ) ^ (24 : ℤ) ≤ q :=
        le_trans (zpow_le_zpow_right₀ (by norm_num) h24) h2e
      have heq : q = (2 : ℚ) ^ (24 : ℤ) := le_antisymm hq24 hq24'
      have he24 : e = 24 := by
        rw [hedef, heq, show (2 : ℚ) = ((2 : ℕ) : ℚ) by norm_num]
        exact Int.log_zpow (by norm_num) 24
      apply hx (2 ^ 23)
      rw [heq, he24, ← zpow_add₀ (by norm_num : (2 : ℚ) ≠ 0)]
      norm_num
    have ht : (0 : ℤ) ≤ 23 - e := by omega
    set m := rndHalfEven (q * 2 ^ ((23 : ℤ) - e)) with hmdef
    have hround : roundF32 q = (m : ℚ) * 2 ^ (e - (23 : ℤ)) := by
      unfold roundF32
      rw [if_neg hq0.ne', ← hedef, ← hmdef]
    rw [hround]
    set k := ⌈q⌉ with hkdef
    have hq_le_k : q ≤ (k : ℚ) := Int.le_ceil q
    have hk1_lt_q : (k : ℚ) - 1 < q := by
      have := Int.ceil_lt_add_one q
      rw [← hkdef] at this
      linarith
    have hpow_id : (2 : ℚ) ^ ((23 : ℤ) - e) * 2 ^ (e - (23 : ℤ)) = 1 := by
      rw [← zpow_add₀ (by norm_num : (2 : ℚ) ≠ 0)]
      norm_num
    have hupper : (m : ℚ) * 2 ^ (e - (23 : ℤ)) ≤ (k : ℚ) := by
      have hle : q * 2 ^ ((23 : ℤ) - e) ≤ (((k * 2 ^ (23 - e).toNat : ℤ)) : ℚ) := by
        push_cast
        rw [← zpow_natCast (2 : ℚ), Int.toNat_of_nonneg ht]
        exact mul_le_mul_of_nonneg_right hq_le_k (by positivity)
      have hm_le : m ≤ k * 2 ^ (23 - e).toNat := rndHalfEven_le_of_le hle
      have hmq : (m : ℚ) ≤ (k : ℚ) * 2 ^ ((23 : ℤ) - e) := by
        have h2 : (m : ℚ) ≤ (((k * 2 ^ (23 - e).toNat : ℤ)) : ℚ) := by
          exact_mod_cast hm_le
        push_cast at h2
        rwa [← zpow_natCast (2 : ℚ), Int.toNat_of_nonneg ht] at h2
      calc (m : ℚ) * 2 ^ (e - (23 : ℤ))
          ≤ ((k : ℚ) * 2 ^ ((23 : ℤ) - e)) * 2 ^ (e - (23 : ℤ)) :=
            mul_le_mul_of_nonneg_right hmq (by positivity)
        _ = (k : ℚ) := by rw [mul_assoc, hpow_id, mul_one]
    have hlower : (k : ℚ) - 1 < (m : ℚ) * 2 ^ (e - (23 : ℤ)) := by
      by_contra hfl
      push_neg at hfl
      have hdiff : q - (m : ℚ) * 2 ^ (e - (23 : ℤ)) ≤ 2 ^ (e - (24 : ℤ)) := by
        have h1 : q * 2 ^ ((23 : ℤ) - e) - m ≤ 1 / 2 := q_sub_rndHalfEven_le _
        have h2 : q - (m : ℚ) * 2 ^ (e - (23 : ℤ)) =
            (q * 2 ^ ((23 : ℤ) - e) - m) * 2 ^ (e - (23 : ℤ)) := by
          rw [sub_mul, mul_assoc, hpow_id, mul_one]
        rw [h2]
        calc (q * 2 ^ ((23 : ℤ) - e) - m) * 2 ^ (e - (23 : ℤ))
            ≤ (1 / 2) * 2 ^ (e - (23 : ℤ)) :=
              mul_le_mul_of_nonneg_right h1 (by positivity)
          _ = 2 ^ (e - (24 : ℤ)) := by
              rw [show (1 / 2 : ℚ) = 2 ^ (-1 : ℤ) by norm_num,
                ← zpow_add₀ (by norm_num : (2 : ℚ) ≠ 0),
                show (-1 : ℤ) + (e - 23) = e - 24 by ring]
      have hab : (a : ℚ) = q * b := by
        rw [hqdef, div_mul_cancel₀ _ hbq.ne']
      have hNpos : (0 : ℤ) < (a : ℤ) - (k - 1) * b := by
        have hql : ((k : ℚ) - 1) * b < (a : ℚ) := by
          rw [hab]
          exact mul_lt_mul_of_pos_right hk1_lt_q hbq
        have : (((a : ℤ) - (k - 1) * b : ℤ) : ℚ) > 0 := by push_cast; linarith
        exact_mod_cast this
      have hge : 1 / (b : ℚ) ≤ q - ((k : ℚ) - 1) := by
        have hN1 : (1 : ℚ) ≤ (a : ℚ) - ((k : ℚ) - 1) * b := by
          have h3 : (1 : ℤ) ≤ (a : ℤ) - (k - 1) * b := hNpos
          have h2 : ((1 : ℤ) : ℚ) ≤ (((a : ℤ) - (k - 1) * b : ℤ) : ℚ) := by
            exact_mod_cast h3
          push_cast at h2
          linarith [mul_comm ((k : ℚ) - 1) (b : ℚ)]
        have heq : q - ((k : ℚ) - 1) = ((a : ℚ) - ((k : ℚ) - 1) * b) / b := by
          rw [hqdef]
          field_simp
          ring
        rw [heq]
        exact (div_le_div_iff_of_pos_right hbq).mpr hN1
      have hchain : 1 / (b : ℚ) ≤ 2 ^ (e - (24 : ℤ)) := by
        calc 1 / (b : ℚ) ≤ q - ((k : ℚ) - 1) := hge
          _ ≤ q - (m : ℚ) * 2 ^ (e - (23 : ℤ)) := by linarith
          _ ≤ 2 ^ (e - (24 : ℤ)) := hdiff
      have hbge : (2 : ℚ) ^ ((24 : ℤ) - e) ≤ b := by
        have h1 : (1 : ℚ) ≤ 2 ^ (e - (24 : ℤ)) * b := (div_le_iff₀ hbq).mp hchain
        calc (2 : ℚ) ^ ((24 : ℤ) - e) = 2 ^ ((24 : ℤ) - e) * 1 := by ring
          _ ≤ 2 ^ ((24 : ℤ) - e) * (2 ^ (e - (24 : ℤ)) * b) :=
              mul_le_mul_of_nonneg_left h1 (by positivity)
          _ = b := by
              rw [← mul_assoc, ← zpow_add₀ (by norm_num : (2 : ℚ) ≠ 0)]
              norm_num
      have h2a : ((2 : ℚ) ^ (24 : ℤ)) ≤ (a : ℚ) := by
        calc (2 : ℚ) ^ (24 : ℤ) = 2 ^ e * 2 ^ ((24 : ℤ) - e) := by
              rw [← zpow_add₀ (by norm_num : (2 : ℚ) ≠ 0)]
              norm_num
          _ ≤ q * b := mul_le_mul h2e hbge (by positivity) (le_of_lt hq0)
          _ = a := hab.symm
      have ha2 : (a : ℚ) ≤ (2 : ℚ) ^ (24 : ℤ) := by
        rw [show ((2 : ℚ) ^ (24 : ℤ)) = ((2 ^ 24 : ℕ) : ℚ) by push_cast; norm_num]
        exact_mod_cast ha
      have haeq : (a : ℚ) = (2 : ℚ) ^ (24 : ℤ) := le_antisymm ha2 h2a
      have hqe : q = (2 : ℚ) ^ e := by
        by_contra hne
        have hlt : (2 : ℚ) ^ e < q := lt_of_le_of_ne h2e (Ne.symm hne)
        have hstrict : (2 : ℚ) ^ (24 : ℤ) < (a : ℚ) := by
          calc (2 : ℚ) ^ (24 : ℤ) = 2 ^ e * 2 ^ ((24 : ℤ) - e) := by
                rw [← zpow_add₀ (by norm_num : (2 : ℚ) ≠ 0)]
                norm_num
            _ ≤ 2 ^ e * b := mul_le_mul_of_nonneg_left hbge (by positivity)
            _ < q * b := mul_lt_mul_of_pos_right hlt hbq
            _ = a := hab.symm
        rw [haeq] at hstrict
        exact lt_irrefl _ hstrict
      apply hx (2 ^ 23)
      rw [hqe, ← zpow_add₀ (by norm_num : (2 : ℚ) ≠ 0),
        show e + ((23 : ℤ) - e) = 23 by ring]
      push_cast
      norm_num
    have hceil_le : ⌈(m : ℚ) * 2 ^ (e - (23 : ℤ))⌉ ≤ k := Int.ceil_le.mpr hupper
    have hle_ceil : k ≤ ⌈(m : ℚ) * 2 ^ (e - (23 : ℤ))⌉ := by
      have h1 : (k : ℚ) - 1 < (⌈(m : ℚ) * 2 ^ (e - (23 : ℤ))⌉ : ℚ) :=
        lt_of_lt_of_le hlower (Int.le_ceil _)
      have h2 : ((k - 1 : ℤ) : ℚ) < (⌈(m : ℚ) * 2 ^ (e - (23 : ℤ))⌉ : ℚ) := by
        push_cast
        linarith
      have h3 : (k - 1 : ℤ) < ⌈(m : ℚ) * 2 ^ (e - (23 : ℤ))⌉ := by
        exact_mod_cast h2
      omega
    omega

/-- The `f32` pipeline of `PageMetadata::new` is exact within the 24-bit
range. -/
theorem totalPages_exact (size total : ℕ) (hs1 : 1 ≤ size) (hs : size ≤ 2 ^ 24)
    (ht : total ≤ 2 ^ 24) :
    f32ceilToU64 (f32div (f32ofNat total) (f32ofNat size)) =
      Int.toNat ⌈(total : ℚ) / (size : ℚ)⌉ := by
  unfold f32ceilToU64 f32div f32ofNat
  rw [roundF32_natCast total ht, roundF32_natCast size hs,
    ceil_roundF32_div total size ht hs1 hs]
  apply min_eq_right
  have hle : (total : ℚ) / size ≤ (total : ℚ) :=
    div_le_self (by positivity) (by exact_mod_cast hs1)
  have hceil : ⌈(total : ℚ) / size⌉ ≤ (total : ℤ) := by
    calc ⌈(total : ℚ) / size⌉ ≤ ⌈(total : ℚ)⌉ := Int.ceil_le_ceil hle
      _ = (total : ℤ) := Int.ceil_natCast total
  have h1 : Int.toNat ⌈(total : ℚ) / size⌉ ≤ total := by
    rw [Int.toNat_le]
    exact hceil
  have h2 : (2 : ℕ) ^ 24 ≤ 2 ^ 64 - 1 := by norm_num
  omega

/-- C2 (amended): for `page ≥ 1`, `size ∈ [1, 2^24]` and
`total_results ≤ 2^24`, `PageMetadata::new` returns the exact mathematical
ceiling of `total_results / size` as `total_pages` (beyond `2^24` the `f32`
arithmetic loses exactness), `next_page = page + 1` exactly when
`page < total_pages`, and `prev_page = page - 1` exactly when `page > 1`. -/
theorem c2_page_metadata_exact (page size total : ℕ) (hp : 1 ≤ page)
    (hs1 : 1 ≤ size) (hs : size ≤ 2 ^ 24) (ht : total ≤ 2 ^ 24) :
    (PageMetadata.new page size total).totalPages = Int.toNat ⌈(total : ℚ) / size⌉ ∧
    (PageMetadata.new page size total).nextPage =
      (if page < Int.toNat ⌈(total : ℚ) / size⌉ then some (page + 1) else none) ∧
    (PageMetadata.new page size total).prevPage =
      (if 1 < page then some (page - 1) else none) ∧
    (PageMetadata.new page size total).currentPage = page ∧
    (PageMetadata.new page size total).totalResults = total := by
  have h := totalPages_exact size total hs1 hs ht
  refine ⟨h, ?_, rfl, rfl, rfl⟩
  show (if page < f32ceilToU64 (f32div (f32ofNat total) (f32ofNat size))
    then some (page + 1) else none) = _
  rw [h]

/-- C2 witness: the spec's concrete example `new(3, 10, 25)`. -/
theorem c2_page_metadata_exact_witness :
    (PageMetadata.new 3 10 25).totalPages = 3 ∧
    (PageMetadata.new 3 10 25).nextPage = none ∧
    (PageMetadata.new 3 10 25).prevPage = some 2 := by
  obtain ⟨h1, h2, h3, _, _⟩ := c2_page_metadata_exact 3 10 25
    (by norm_num) (by norm_num) (by norm_num) (by norm_num)
  have hc : Int.toNat ⌈((25 : ℕ) : ℚ) / ((10 : ℕ) : ℚ)⌉ = 3 := by
    have hc1 : ⌈((25 : ℕ) : ℚ) / ((10 : ℕ) : ℚ)⌉ = 3 := by
      rw [Int.ceil_eq_iff]
      constructor <;> push_cast <;> norm_num
    rw [hc1]
    rfl
  rw [hc] at h1 h2
  refine ⟨h1, ?_, ?_⟩
  · rw [h2]
    norm_num
  · rw [h3]
    norm_num

/-- The value `2^24 + 1` is not representable in `f32`: it rounds (ties to
even) down to `2^24`. -/
theorem roundF32_pow24_succ : roundF32 ((16777217 : ℕ) : ℚ) = 16777216 := by
  have hlog : Nat.log 2 16777217 = 24 :=
    Nat.log_eq_of_pow_le_of_lt_pow (by norm_num) (by norm_num)
  unfold roundF32
  rw [if_neg (by norm_num), Int.log_natCast, hlog]
  have hx : ((16777217 : ℕ) : ℚ) * 2 ^ ((23 : ℤ) - ((24 : ℕ) : ℤ)) =
      (16777217 : ℚ) / 2 := by
    rw [show (23 : ℤ) - ((24 : ℕ) : ℤ) = (-1 : ℤ) by norm_num, zpow_neg_one]
    push_cast
    ring
  rw [hx]
  have hr : rndHalfEven ((16777217 : ℚ) / 2) = 8388608 := by
    unfold rndHalfEven
    have hf : ⌊(16777217 : ℚ) / 2⌋ = 8388608 := by
      rw [Int.floor_eq_iff]
      constructor <;> norm_num
    rw [hf]
    norm_num
  rw [hr]
  rw [show ((24 : ℕ) : ℤ) - (23 : ℤ) = (1 : ℤ) by norm_num, zpow_one]
  norm_num

/-- C2 counterexample: at `page = 1`, `size = 1`,
`total_results = 2^24 + 1 = 16777217` the `f32` pipeline computes
`total_pages = 16777216`, while the exact ceiling is `16777217`. -/
theorem c2_float_ceiling_counterexample :
    (PageMetadata.new 1 1 16777217).totalPages = 16777216 ∧
    Int.toNat ⌈((16777217 : ℕ) : ℚ) / ((1 : ℕ) : ℚ)⌉ = 16777217 ∧
    (16777216 : ℕ) ≠ 16777217 := by
  refine ⟨?_, ?_, by decide⟩
  · show f32ceilToU64 (f32div (f32ofNat 16777217) (f32ofNat 1)) = 16777216
    unfold f32div f32ofNat
    rw [roundF32_pow24_succ, roundF32_natCast 1 (by norm_num)]
    rw [show ((1 : ℕ) : ℚ) = 1 by norm_num, div_one]
    rw [show (16777216 : ℚ) = ((16777216 : ℕ) : ℚ) by norm_num,
      roundF32_natCast 16777216 (by norm_num)]
    unfold f32ceilToU64
    rw [show ((16777216 : ℕ) : ℚ) = ((16777216 : ℤ) : ℚ) by norm_num,
      Int.ceil_intCast]
    decide
  · rw [show ((1 : ℕ) : ℚ) = 1 by norm_num, div_one,
      show ((16777217 : ℕ) : ℚ) = ((16777217 : ℤ) : ℚ) by norm_num,
      Int.ceil_intCast]
    decide

end DspTracker
